import Mathlib

/-!
Shallow embedding of `src/backend/feddersen/util/knowledge_manager.py`
(class `KnowledgeManager`).  Remote HTTP calls are modelled by an explicit
environment of response oracles; Python dicts with varying keys are modelled
by structures of `Option` fields (a key is present iff the field is `some`);
Python truthiness of strings (`""`/`None` falsy) is modelled explicitly.
-/

/-- Python-level errors raised by the embedded code paths. -/
inductive PyError where
  | typeError (msg : String)
  | valueError (msg : String)
deriving DecidableEq, Repr

/-- Truthiness of an optional string, as Python evaluates `if s:`:
`None` and `""` are falsy. -/
def truthyStr : Option String → Bool
  | none => false
  | some s => if s = "" then false else true

/-- The `metadata` field of `ExtraMetadata` (`feddersen.models.ItemMetadata`):
only the `url` member is consulted by `knowledge_manager.py`; the remaining
members are kept abstract in `title`.  `url` is `Option` so that both a
missing and an empty URL (both falsy in Python) are representable. -/
structure ItemMetadata where
  title : String
  url : Option String
deriving DecidableEq, Repr

/-- `feddersen.models.ExtraMetadata`, restricted to the member the manager
reads (`.metadata`); the `auth` blob is never consulted by this module. -/
structure ExtraMetadata where
  metadata : ItemMetadata
deriving DecidableEq, Repr

/-- A remote file record as returned inside `GET /knowledge/{id}` —
`FileMetadataResponse` with its `meta` dict abstracted to the only part the
code reads: the (optional) `ExtraMetadata` stored under
`EXTRA_MIDDLEWARE_METADATA_KEY`.  `extra = none` models a `meta` blob that
lacks the reserved key (or is itself falsy). -/
structure FileRec where
  id : String
  extra : Option ExtraMetadata
deriving DecidableEq, Repr

/-- Payload shapes stored under the `"result"` key of an operation-result
dict. -/
inductive RVal where
  | remote (body : String)
  | batchEntry (id : String) (batch_result : String)
  | single (success : Bool) (result : Option String) (error : Option String)
deriving DecidableEq, Repr

/-- A per-item operation-result dict (`{"file_id"|"file_name", "success",
"result"|"error"}`).  A field is `none` exactly when the Python dict lacks
that key; `file_name` is doubly optional because the code can store `None`
under the `"file_name"` key. -/
structure OpResult where
  file_id : Option String := none
  file_name : Option (Option String) := none
  success : Bool
  result : Option RVal := none
  error : Option String := none
deriving DecidableEq, Repr

/-- Environment of remote-response oracles for one `KnowledgeManager` call:
each field gives the outcome of the corresponding HTTP request.
`Except.error e` carries the response body text of a non-200 reply. -/
structure Env where
  /-- Files listed by `GET /knowledge/{id}` (`_retrieve_files_in_knowledge`). -/
  kbFiles : String → List FileRec
  /-- Result of `_send_file` for a path and metadata: the uploaded file id,
  or `none` on any failure (missing local file, non-200, id missing). -/
  sendFile : String → ExtraMetadata → Option String
  /-- Response of `POST /knowledge/{id}/files/batch/add` for a file-id list. -/
  batchAttach : String → List String → Except String String
  /-- Response of `POST /knowledge/{id}/file/remove` for one file id. -/
  removeResp : String → String → Except String String
  /-- Response of `POST /knowledge/{id}/file/add` for one file id. -/
  fileAdd : String → String → Except String String

/-- `KnowledgeManager.remove_files` (lines 234-275): one remove call per
input id, in order; a failure response yields a `success=False` record with
the body as error, a 200 yields a `success=True` record with the parsed
body. -/
def remove_files (env : Env) (kid : String) (file_ids : List String) :
    List OpResult :=
  file_ids.map (fun fid =>
    match env.removeResp kid fid with
    | .error e => { file_id := some fid, success := false, error := some e }
    | .ok r => { file_id := some fid, success := true, result := some (.remote r) })

/-- The `metadata` argument of `add_files` as Python receives it: left at its
default `None`, a single `ExtraMetadata` instance, or a list. -/
inductive MetaArg where
  | noneArg
  | single (m : ExtraMetadata)
  | list (ms : List ExtraMetadata)

/-- Lines 191-201 of `add_files`: from the knowledge base's file list,
collect the `metadata.url` of every file whose `meta` blob carries a truthy
`EXTRA_MIDDLEWARE_METADATA_KEY` entry (the URL itself is collected even when
`None`).  Membership below models the Python `set`. -/
def existingUrls (files : List FileRec) : List (Option String) :=
  files.filterMap (fun f => f.extra.map (fun e => e.metadata.url))

/-- Line 210 of `add_files`: keep a `(file_path, meta_data)` pair for upload
iff `item_meta.url` is truthy and not in the existing-URL set
(`item_meta` itself is a pydantic model, always truthy). -/
def keepForUpload (existing : List (Option String)) (pm : String × ExtraMetadata) :
    Bool :=
  truthyStr pm.2.metadata.url && !(decide (pm.2.metadata.url ∈ existing))

/-- The warning logged on the skip branch (lines 214-216). -/
def skipWarning (pm : String × ExtraMetadata) : String :=
  "File already exists in knowledge base: " ++ pm.1 ++ ", skipping."

/-- Lines 205-206: a bare `None` makes the later `zip` raise `TypeError`; a
single instance is replicated to the length of `file_paths`. -/
def normalizeMeta (nPaths : Nat) : MetaArg → Option (List ExtraMetadata)
  | .noneArg => none
  | .single m => some (List.replicate nPaths m)
  | .list ms => some ms

/-- Fuel-driven worker for `chunksOf`: peels `take B` off the front until
the list is exhausted.  The fuel only bounds the recursion depth; the list
length always suffices, so the fuel-exhausted branch is unreachable from
`chunksOf`. -/
def chunksGo (B : Nat) : Nat → List α → List (List α)
  | _, [] => []
  | 0, _ :: _ => []
  | fuel + 1, x :: xs =>
      (x :: xs.take (B - 1)) :: chunksGo B fuel (xs.drop (B - 1))

/-- Batch slicing, equal for `B ≥ 1` to Python's
`[l[i:i+B] for i in range(0, len(l), B)]` (line 218-220): the head chunk is
`l.take B` and the rest chunks `l.drop B`. -/
def chunksOf (B : Nat) (l : List α) : List (List α) := chunksGo B l.length l

/-- Line 218's `range(0, n, step)` semantics over the slicing loop: a zero
step raises `ValueError`; a negative step yields an empty range, hence no
batches; a positive step chunks the list. -/
def planBatches (batchSize : Int) (l : List α) : Except PyError (List (List α)) :=
  if batchSize = 0 then .error (.valueError "range() arg 3 must not be zero")
  else if batchSize < 0 then .ok []
  else .ok (chunksOf batchSize.toNat l)

/-- `_upload_files_batch` (lines 424-455): fire one `_send_file` per pair
and keep only the truthy resulting ids (`if file_id` filters both `None` and
`""`). -/
def uploadFilesBatch (env : Env) (chunk : List (String × ExtraMetadata)) :
    List String :=
  (chunk.map (fun pm => env.sendFile pm.1 pm.2)).filterMap (fun o =>
    match o with
    | some s => if s = "" then none else some s
    | none => none)

/-- `_add_files_to_kb_batch` (lines 457-512): one batch-attach call; on a
non-200 each id gets a `success=False` record carrying the id, on a 200 each
id gets a `success=True` record whose id sits only inside the `result`
payload. -/
def addFilesToKbBatch (env : Env) (kid : String) (file_ids : List String) :
    List OpResult :=
  if file_ids.isEmpty then []
  else
    match env.batchAttach kid file_ids with
    | .error e =>
        file_ids.map (fun fid =>
          { file_id := some fid, success := false,
            error := some ("Batch operation failed: " ++ e) })
    | .ok r =>
        file_ids.map (fun fid =>
          { success := true, result := some (.batchEntry fid r) })

/-- The batch loop of `add_files` (lines 218-230): per chunk, upload all
pairs, then — only when some id survived — issue the batch-attach call and
extend the results.  Returns `(results, upload calls issued, attach calls
issued)`. -/
def processBatches (env : Env) (kid : String) :
    List (List (String × ExtraMetadata)) →
      List OpResult × List (String × ExtraMetadata) × List (List String)
  | [] => ([], [], [])
  | c :: cs =>
      let ids := uploadFilesBatch env c
      let rest := processBatches env kid cs
      (((if ids.isEmpty then [] else addFilesToKbBatch env kid ids) ++ rest.1),
        c ++ rest.2.1,
        ((if ids.isEmpty then [] else [ids]) ++ rest.2.2))

/-- Observable outcome of one `add_files` call: the returned result list,
the warnings logged on skip, and the upload / batch-attach requests issued. -/
structure AddOut where
  results : List OpResult
  warnings : List String
  uploadCalls : List (String × ExtraMetadata)
  attachCalls : List (List String)
deriving DecidableEq, Repr

/-- `KnowledgeManager.add_files` (lines 163-232): fetch the existing URL
set, zip paths with metadata (raising `TypeError` when `metadata` is
`None`), drop pairs whose URL is falsy or already present (logging one
warning each), then upload and batch-attach chunk by chunk. -/
def add_files (env : Env) (batchSize : Int) (kid : String)
    (file_paths : List String) (metadata : MetaArg) : Except PyError AddOut :=
  let existing := existingUrls (env.kbFiles kid)
  match normalizeMeta file_paths.length metadata with
  | none => .error (.typeError "zip argument #2 must support iteration")
  | some ms =>
      let pairs := file_paths.zip ms
      let toUpload := pairs.filter (keepForUpload existing)
      let warnings :=
        (pairs.filter (fun pm => !(keepForUpload existing pm))).map skipWarning
      match planBatches batchSize toUpload with
      | .error e => .error e
      | .ok chunks =>
          let po := processBatches env kid chunks
          .ok { results := po.1, warnings := warnings,
                uploadCalls := po.2.1, attachCalls := po.2.2 }

/-- `_get_item_url_of_file` (lines 277-298): the embedded URL of a file
record, but only when the record, its meta entry and the URL itself are all
truthy; otherwise `None`. -/
def getItemUrlOfFile : Option FileRec → Option String
  | none => none
  | some f =>
      match f.extra with
      | none => none
      | some e =>
          match e.metadata.url with
          | none => none
          | some u => if u = "" then none else some u

/-- `_get_file_meta_if_exists_in_knowledge` (lines 300-322): linear scan,
first file whose truthy embedded URL equals the document's URL wins. -/
def findFileByUrl (files : List FileRec) (im : ItemMetadata) : Option FileRec :=
  files.find? (fun kf =>
    match getItemUrlOfFile (some kf) with
    | some u => decide (im.url = some u)
    | none => false)

/-- Result dict of `_upload_file_and_add_to_kb`. -/
structure AddSingleResult where
  success : Bool
  result : Option String := none
  error : Option String := none
deriving DecidableEq, Repr

/-- `_upload_file_and_add_to_kb` (lines 514-554): upload, fail fast on a
falsy file id, then one single-file attach call.  Also returns the file id
actually attached (`some` only when the attach call returned 200). -/
def uploadFileAndAddToKb (env : Env) (file_path : String) (metadata : ExtraMetadata)
    (kid : String) : AddSingleResult × Option String :=
  match env.sendFile file_path metadata with
  | none => ({ success := false, error := some "Failed to upload file" }, none)
  | some fid =>
      if fid = "" then
        ({ success := false, error := some "Failed to upload file" }, none)
      else
        match env.fileAdd kid fid with
        | .error e => ({ success := false, error := some e }, none)
        | .ok r => ({ success := true, result := some r }, some fid)

/-- Remote calls issued while updating one document: remove calls issued,
remove calls that returned 200, uploads attempted, and `(file id, metadata)`
pairs successfully uploaded and attached. -/
structure DocTrace where
  removeCalls : List String
  removeSuccesses : List String
  uploadCalls : List (String × ExtraMetadata)
  attachSuccesses : List (String × ExtraMetadata)
deriving DecidableEq, Repr

/-- Body of the per-document loop of `update_files` (lines 355-391): resolve
the existing file by URL; a missing file (or falsy id) yields a
`File not found` failure; otherwise remove it, and only on removal success
upload-and-attach the replacement — reporting `success=True` with the nested
`add_result` regardless of that nested outcome. -/
def updateOne (env : Env) (kid : String) (files : List FileRec)
    (file_path : String) (m : ExtraMetadata) : OpResult × DocTrace :=
  let file := findFileByUrl files m.metadata
  let fileItemUrl := getItemUrlOfFile file
  match file with
  | none =>
      ({ file_name := some fileItemUrl, success := false,
         error := some "File not found" }, ⟨[], [], [], []⟩)
  | some f =>
      if f.id = "" then
        ({ file_name := some fileItemUrl, success := false,
           error := some "File not found" }, ⟨[], [], [], []⟩)
      else
        let rr := remove_files env kid [f.id]
        let removedOk := match rr.head? with
          | some r0 => r0.success
          | none => false
        if removedOk then
          let ar := uploadFileAndAddToKb env file_path m kid
          ({ file_name := some fileItemUrl, success := true,
             result := some (.single ar.1.success ar.1.result ar.1.error) },
            ⟨[f.id], [f.id], [(file_path, m)],
              match ar.2 with
              | some fid => [(fid, m)]
              | none => []⟩)
        else
          ({ file_name := some fileItemUrl, success := false,
             error := some "Failed to remove file" }, ⟨[f.id], [], [], []⟩)

/-- `KnowledgeManager.update_files` (lines 324-393), result list: the
knowledge-base file list is fetched once, then each `(path, metadata)` pair
is processed sequentially by the loop body. -/
def update_files (env : Env) (kid : String) (file_paths : List String)
    (metadata : List ExtraMetadata) : List OpResult :=
  (file_paths.zip metadata).map
    (fun pm => (updateOne env kid (env.kbFiles kid) pm.1 pm.2).1)

/-- The remote calls issued by the same `update_files` run, per document. -/
def updateTraces (env : Env) (kid : String) (file_paths : List String)
    (metadata : List ExtraMetadata) : List DocTrace :=
  (file_paths.zip metadata).map
    (fun pm => (updateOne env kid (env.kbFiles kid) pm.1 pm.2).2)

/-- A knowledge-base summary dict as returned by `GET /knowledge/`; the code
reads it with `kb.get("name")` / `kb.get("id")`, so both keys may be
absent. -/
structure KB where
  id : Option String
  name : Option String
deriving DecidableEq, Repr

/-- Environment for `create_knowledge_if_not_exists`: the list response and
the create response (`some id`-field or `none` when the 200 body lacks an
`id`). -/
structure KbEnv where
  listResp : Except String (List KB)
  createResp : String → String → Except String (Option String)

/-- Line 130-132's scan: first listed base whose `name` equals the requested
name (Python `==` between a possibly-missing value and a `str`). -/
def findKbByName (kbs : List KB) (name : String) : Option KB :=
  kbs.find? (fun kb => decide (kb.name = some name))

/-- `create_knowledge_if_not_exists` (lines 97-161): on a 200 list response
return the first exact name match's id (issuing no create call); otherwise
issue the create call, returning its truthy id field or `None`.  The second
component counts the create calls issued. -/
def create_knowledge_if_not_exists (env : KbEnv) (name description : String) :
    Option String × Nat :=
  let doCreate : Option String × Nat :=
    match env.createResp name description with
    | .error _ => (none, 1)
    | .ok none => (none, 1)
    | .ok (some i) => (if i = "" then none else some i, 1)
  match env.listResp with
  | .ok kbs =>
      match findKbByName kbs name with
      | some kb => (kb.id, 0)
      | none => doCreate
  | .error _ => doCreate

/-- Modelled from the spec: the remote knowledge store's list and create
endpoints (§6, not part of `src/`) — `GET /knowledge/` returns the current
bases, and `POST /knowledge/create` appends a base with the requested name
and a fresh id and answers `{id}`. -/
def kbStoreEnv (st : List KB) (freshId : String) : KbEnv :=
  { listResp := .ok st
    createResp := fun _ _ => .ok (some freshId) }

/-- Modelled from the spec: one `create_knowledge_if_not_exists` call run
against the spec-modelled store `kbStoreEnv`; returns the call's result, the
store afterwards, and the number of create calls issued. -/
def createIfNotExistsStep (st : List KB) (name description freshId : String) :
    Option String × List KB × Nat :=
  let rc := create_knowledge_if_not_exists (kbStoreEnv st freshId) name description
  (rc.1, if rc.2 = 0 then st else st ++ [KB.mk (some freshId) (some name)], rc.2)

/-- Python `a or b` on optional strings: the left operand unless falsy. -/
def pyOr (a b : Option String) : Option String :=
  match a with
  | none => b
  | some s => if s = "" then b else some s

/-- Python `s.endswith(suffix)`, computed over the character list (the
built-in `String.endsWith` does not reduce inside the kernel). -/
def endsWithStr (s suffix : String) : Bool :=
  if suffix.toList.length ≤ s.toList.length then
    decide (s.toList.drop (s.toList.length - suffix.toList.length)
      = suffix.toList)
  else false

/-- Python `s.strip("/")`: remove leading and trailing slashes. -/
def stripSlashes (s : String) : String :=
  String.mk (((s.toList.dropWhile (fun c => c = '/')).reverse.dropWhile
    (fun c => c = '/')).reverse)

/-- The manager state set up by a successful `__init__`. -/
structure Manager where
  base_url : String
  api_key : String
  batch_size : Int
deriving DecidableEq, Repr

/-- `KnowledgeManager.__init__` (lines 49-78): resolve the base URL from the
argument or the `OPEN_WEBUI_URL` env var (default `http://localhost:8080`),
normalise it to end in `/api/v1`, resolve the API key from the argument or
`OPEN_WEBUI_API_KEY`, store `batch_size` unexamined, and raise `ValueError`
only when the resolved API key is falsy. -/
def initManager (envUrl envKey base_url api_key : Option String)
    (batch_size : Int) : Except PyError Manager :=
  let bu0 := (pyOr base_url (some (match envUrl with
    | some s => s
    | none => "http://localhost:8080"))).getD ""
  let bu := if endsWithStr bu0 "/api/v1" then bu0
    else stripSlashes bu0 ++ "/api/v1"
  let key := pyOr api_key envKey
  if truthyStr key then
    .ok { base_url := bu, api_key := key.getD "", batch_size := batch_size }
  else
    .error (.valueError
      "API key is required. Provide it as parameter or set OPEN_WEBUI_API_KEY environment variable.")

/-- Concrete metadata whose external URL is `"u"`. -/
def mdUrlU : ExtraMetadata := ⟨⟨"title", some "u"⟩⟩

/-- Concrete metadata whose external URL is `"v"`. -/
def mdUrlV : ExtraMetadata := ⟨⟨"title", some "v"⟩⟩

/-- Concrete metadata whose URL key holds the empty string (falsy). -/
def mdUrlEmpty : ExtraMetadata := ⟨⟨"title", some ""⟩⟩

/-- Concrete metadata with no URL value at all (falsy). -/
def mdUrlNone : ExtraMetadata := ⟨⟨"title", none⟩⟩

/-- Environment where the knowledge base is empty and every remote call
succeeds; an upload of path `p` yields file id `"id-" ++ p`. -/
def envFresh : Env :=
  { kbFiles := fun _ => []
    sendFile := fun p _ => some ("id-" ++ p)
    batchAttach := fun _ _ => .ok "batch-ok"
    removeResp := fun _ _ => .ok "removed"
    fileAdd := fun _ _ => .ok "added" }

/-- Like `envFresh` but the knowledge base already holds file `"f1"` whose
embedded metadata URL is `"u"`. -/
def envSeen : Env := { envFresh with kbFiles := fun _ => [⟨"f1", some mdUrlU⟩] }

/-- Like `envSeen` but every remove call fails with body `"remove-500"`. -/
def envRemoveErr : Env := { envSeen with removeResp := fun _ _ => .error "remove-500" }

/-- Like `envSeen` but every upload fails (`_send_file` returns `None`). -/
def envUploadFail : Env := { envSeen with sendFile := fun _ _ => none }

/-- Seven concrete file paths, for the spec's batch scenario. -/
def paths7 : List String := ["p1", "p2", "p3", "p4", "p5", "p6", "p7"]

/-- Seven concrete metadata values with pairwise distinct URLs. -/
def mds7 : List ExtraMetadata :=
  [⟨⟨"t", some "u1"⟩⟩, ⟨⟨"t", some "u2"⟩⟩, ⟨⟨"t", some "u3"⟩⟩,
    ⟨⟨"t", some "u4"⟩⟩, ⟨⟨"t", some "u5"⟩⟩, ⟨⟨"t", some "u6"⟩⟩,
    ⟨⟨"t", some "u7"⟩⟩]

/-- CLAIM C7: `remove_files` returns one result per input id, in input
order, each record carrying the corresponding file id, regardless of the
per-item remote outcome. -/
theorem remove_files_id_correspondence (env : Env) (kid : String)
    (file_ids : List String) :
    (remove_files env kid file_ids).map (fun r => r.file_id)
        = file_ids.map some
      ∧ (remove_files env kid file_ids).length = file_ids.length := by
  constructor
  · simp only [remove_files, List.map_map]
    refine List.map_congr_left (fun fid _ => ?_)
    cases h : env.removeResp kid fid <;> simp [h]
  · simp [remove_files]

/-- The worker ignores the fuel as long as it bounds the list length. -/
theorem chunksGo_fuel_irrelevant (B : Nat) :
    ∀ (f1 f2 : Nat) (l : List α), l.length ≤ f1 → l.length ≤ f2 →
      chunksGo B f1 l = chunksGo B f2 l := by
  intro f1
  induction f1 with
  | zero =>
      intro f2 l h1 h2
      rw [List.length_eq_zero.mp (Nat.le_zero.mp h1)]
      cases f2 <;> rfl
  | succ f1 ih =>
      intro f2 l h1 h2
      rcases l with _ | ⟨x, xs⟩
      · cases f2 <;> rfl
      · rcases f2 with _ | f2
        · simp at h2
        · simp only [chunksGo]
          congr 1
          apply ih
          · simp only [List.length_cons] at h1
            simp only [List.length_drop]
            omega
          · simp only [List.length_cons] at h2
            simp only [List.length_drop]
            omega

/-- Unfolding equation of `chunksOf` on the empty list. -/
theorem chunksOf_nil (B : Nat) : chunksOf B ([] : List α) = [] := rfl

/-- Unfolding equation of `chunksOf` on a nonempty list. -/
theorem chunksOf_cons (B : Nat) (x : α) (xs : List α) :
    chunksOf B (x :: xs) = (x :: xs.take (B - 1)) :: chunksOf B (xs.drop (B - 1)) := by
  simp only [chunksOf, List.length_cons, chunksGo]
  congr 1
  apply chunksGo_fuel_irrelevant
  · simp only [List.length_drop]
    omega
  · exact le_rfl

/-- Concatenating the chunks recovers the original list (fuel-bounded form). -/
theorem chunksOf_flatten_bounded (B : Nat) :
    ∀ (n : Nat) (l : List α), l.length ≤ n → (chunksOf B l).flatten = l := by
  intro n
  induction n with
  | zero =>
      intro l hl
      rw [List.length_eq_zero.mp (Nat.le_zero.mp hl)]
      simp [chunksOf_nil]
  | succ n ih =>
      intro l hl
      rcases l with _ | ⟨x, xs⟩
      · simp [chunksOf_nil]
      · rw [chunksOf_cons]
        have hlen : (xs.drop (B - 1)).length ≤ n := by
          simp only [List.length_cons] at hl
          simp only [List.length_drop]
          omega
        simp only [List.flatten_cons, ih _ hlen, List.cons_append,
          List.take_append_drop]

/-- Concatenating the chunks recovers the original list. -/
theorem chunksOf_flatten (B : Nat) (l : List α) : (chunksOf B l).flatten = l :=
  chunksOf_flatten_bounded B l.length l le_rfl

/-- Every chunk is nonempty (fuel-bounded form). -/
theorem ne_nil_of_mem_chunksOf_bounded {B : Nat} :
    ∀ (n : Nat) (l c : List α), l.length ≤ n → c ∈ chunksOf B l → c ≠ [] := by
  intro n
  induction n with
  | zero =>
      intro l c hl hc
      rw [List.length_eq_zero.mp (Nat.le_zero.mp hl)] at hc
      simp [chunksOf_nil] at hc
  | succ n ih =>
      intro l c hl hc
      rcases l with _ | ⟨x, xs⟩
      · simp [chunksOf_nil] at hc
      · rw [chunksOf_cons] at hc
        rcases List.mem_cons.mp hc with h | h
        · subst h; simp
        · have hlen : (xs.drop (B - 1)).length ≤ n := by
            simp only [List.length_cons] at hl
            simp only [List.length_drop]
            omega
          exact ih _ _ hlen h

/-- Every chunk is nonempty. -/
theorem ne_nil_of_mem_chunksOf {B : Nat} {l c : List α}
    (hc : c ∈ chunksOf B l) : c ≠ [] :=
  ne_nil_of_mem_chunksOf_bounded l.length l c le_rfl hc

/-- For a positive chunk size, every chunk has length at most `B`
(fuel-bounded form). -/
theorem length_le_of_mem_chunksOf_bounded {B : Nat} (hB : 1 ≤ B) :
    ∀ (n : Nat) (l c : List α), l.length ≤ n → c ∈ chunksOf B l →
      c.length ≤ B := by
  intro n
  induction n with
  | zero =>
      intro l c hl hc
      rw [List.length_eq_zero.mp (Nat.le_zero.mp hl)] at hc
      simp [chunksOf_nil] at hc
  | succ n ih =>
      intro l c hl hc
      rcases l with _ | ⟨x, xs⟩
      · simp [chunksOf_nil] at hc
      · rw [chunksOf_cons] at hc
        rcases List.mem_cons.mp hc with h | h
        · subst h
          simp only [List.length_cons, List.length_take]
          omega
        · have hlen : (xs.drop (B - 1)).length ≤ n := by
            simp only [List.length_cons] at hl
            simp only [List.length_drop]
            omega
          exact ih _ _ hlen h

/-- For a positive chunk size, every chunk has length at most `B`. -/
theorem length_le_of_mem_chunksOf {B : Nat} (hB : 1 ≤ B) {l c : List α}
    (hc : c ∈ chunksOf B l) : c.length ≤ B :=
  length_le_of_mem_chunksOf_bounded hB l.length l c le_rfl hc

/-- For a positive chunk size the number of chunks is the ceiling of
`length / B`, written `(length + B - 1) / B` (fuel-bounded form). -/
theorem length_chunksOf_bounded {B : Nat} (hB : 1 ≤ B) :
    ∀ (n : Nat) (l : List α), l.length ≤ n →
      (chunksOf B l).length = (l.length + B - 1) / B := by
  intro n
  induction n with
  | zero =>
      intro l hl
      rw [List.length_eq_zero.mp (Nat.le_zero.mp hl)]
      simp only [chunksOf_nil, List.length_nil]
      rw [Nat.div_eq_of_lt (by omega)]
  | succ n ih =>
      intro l hl
      rcases l with _ | ⟨x, xs⟩
      · simp only [chunksOf_nil, List.length_nil]
        rw [Nat.div_eq_of_lt (by omega)]
      · rw [chunksOf_cons]
        have hlen : (xs.drop (B - 1)).length ≤ n := by
          simp only [List.length_cons] at hl
          simp only [List.length_drop]
          omega
        have hrec := ih _ hlen
        simp only [List.length_cons, List.length_drop] at hrec ⊢
        rw [hrec]
        have hBpos : 0 < B := hB
        rcases le_or_lt (B - 1) xs.length with h | h
        · have h1 : xs.length - (B - 1) + B - 1 = xs.length := by omega
          have h2 : xs.length + 1 + B - 1 = xs.length + B := by omega
          rw [h1, h2, Nat.add_div_right _ hBpos]
        · have h1 : xs.length - (B - 1) + B - 1 = B - 1 := by omega
          have h2 : xs.length + 1 + B - 1 = xs.length + B := by omega
          rw [h1, h2, Nat.add_div_right _ hBpos, Nat.div_eq_of_lt (by omega),
            Nat.div_eq_of_lt (by omega)]

/-- For a positive chunk size the number of chunks is the ceiling of
`length / B`, written `(length + B - 1) / B`. -/
theorem length_chunksOf {B : Nat} (hB : 1 ≤ B) (l : List α) :
    (chunksOf B l).length = (l.length + B - 1) / B :=
  length_chunksOf_bounded hB l.length l le_rfl

/-- When every upload in a chunk succeeds with a truthy id given by `f`, the
surviving id list is exactly the chunk mapped through `f`. -/
theorem uploadFilesBatch_all_ok (env : Env) (f : String × ExtraMetadata → String)
    (c : List (String × ExtraMetadata))
    (h : ∀ pm ∈ c, env.sendFile pm.1 pm.2 = some (f pm) ∧ f pm ≠ "") :
    uploadFilesBatch env c = c.map f := by
  induction c with
  | nil => rfl
  | cons pm cs ih =>
    have h1 := h pm (List.mem_cons_self pm cs)
    have h2 := ih (fun q hq => h q (List.mem_cons_of_mem pm hq))
    simp only [uploadFilesBatch, List.map_cons, List.filterMap_cons, h1.1] at h2 ⊢
    simp [h1.2, h2]

/-- The upload calls issued by the batch loop are the chunks, concatenated. -/
theorem processBatches_uploadCalls (env : Env) (kid : String)
    (cs : List (List (String × ExtraMetadata))) :
    (processBatches env kid cs).2.1 = cs.flatten := by
  induction cs with
  | nil => rfl
  | cons c cs ih => simp [processBatches, ih]

/-- When every chunk is nonempty and uploads entirely succeed, the batch
loop issues exactly one attach call per chunk, carrying the chunk's ids. -/
theorem processBatches_attachCalls (env : Env) (kid : String)
    (f : String × ExtraMetadata → String)
    (cs : List (List (String × ExtraMetadata)))
    (h : ∀ c ∈ cs, uploadFilesBatch env c = c.map f ∧ c ≠ []) :
    (processBatches env kid cs).2.2 = cs.map (fun c => c.map f) := by
  induction cs with
  | nil => rfl
  | cons c cs ih =>
    have hc := h c (List.mem_cons_self c cs)
    have hne : (c.map f).isEmpty = false := by
      rcases c with _ | ⟨q, qs⟩
      · exact absurd rfl hc.2
      · rfl
    have h2 := ih (fun q hq => h q (List.mem_cons_of_mem c hq))
    simp [processBatches, hc.1, hne, h2]

/-- A successful batch plan is either the chunking of the input (positive
step) or empty (negative step). -/
theorem planBatches_flatten (B : Int) (l : List α) (cs : List (List α))
    (h : planBatches B l = .ok cs) : cs.flatten = l ∨ cs = [] := by
  simp only [planBatches] at h
  split at h
  · cases h
  · split at h
    · cases h; right; rfl
    · cases h; left; exact chunksOf_flatten _ l

/-- Any pair actually uploaded by `add_files` passed the keep filter of
line 210. -/
theorem mem_uploadCalls_keep (env : Env) (B : Int) (kid : String)
    (file_paths : List String) (ms : List ExtraMetadata) (out : AddOut)
    (pm : String × ExtraMetadata)
    (hok : add_files env B kid file_paths (.list ms) = .ok out)
    (hpm : pm ∈ out.uploadCalls) :
    keepForUpload (existingUrls (env.kbFiles kid)) pm = true := by
  simp only [add_files, normalizeMeta] at hok
  rcases hp : planBatches B ((file_paths.zip ms).filter
      (keepForUpload (existingUrls (env.kbFiles kid)))) with e | chunks
  · rw [hp] at hok; cases hok
  · rw [hp] at hok
    injection hok with hout
    subst hout
    simp only [processBatches_uploadCalls] at hpm
    rcases planBatches_flatten B _ chunks hp with hfl | rfl
    · rw [hfl] at hpm
      exact (List.mem_filter.mp hpm).2
    · simp at hpm

/-- CLAIM C9: calling `add_files` with the `metadata` parameter left at its
default `None` raises `TypeError` for every `file_paths` list (including the
empty one), because the implementation zips the paths with `None`. -/
theorem add_files_none_metadata_raises (env : Env) (B : Int) (kid : String)
    (file_paths : List String) :
    add_files env B kid file_paths MetaArg.noneArg
      = .error (.typeError "zip argument #2 must support iteration") := by
  simp [add_files, normalizeMeta]

/-- CLAIM C10: a document whose metadata URL is missing or empty is caught
by the same skip branch as a duplicate: it is never uploaded, contributes no
result record, and produces a warning claiming the file already exists. -/
theorem add_files_drops_urlless (env : Env) (B : Int) (kid : String)
    (file_paths : List String) (ms : List ExtraMetadata) :
    (∀ out, add_files env B kid file_paths (.list ms) = .ok out →
        ∀ pm ∈ out.uploadCalls, truthyStr pm.2.metadata.url = true)
      ∧ (B ≠ 0 → (∀ m ∈ ms, truthyStr m.metadata.url = false) →
          add_files env B kid file_paths (.list ms)
            = .ok ⟨[], (file_paths.zip ms).map skipWarning, [], []⟩) := by
  constructor
  · intro out hok pm hpm
    have hkeep := mem_uploadCalls_keep env B kid file_paths ms out pm hok hpm
    simp only [keepForUpload, Bool.and_eq_true] at hkeep
    exact hkeep.1
  · intro hB hfalsy
    have hkeepfalse : ∀ pm ∈ file_paths.zip ms,
        keepForUpload (existingUrls (env.kbFiles kid)) pm = false := by
      rintro ⟨p, m⟩ hpm
      have hm : m ∈ ms := (List.of_mem_zip hpm).2
      simp [keepForUpload, hfalsy m hm]
    have hfilter : (file_paths.zip ms).filter
        (keepForUpload (existingUrls (env.kbFiles kid))) = [] := by
      rw [List.filter_eq_nil_iff]
      intro pm hpm
      simp [hkeepfalse pm hpm]
    have hfilter2 : (file_paths.zip ms).filter
        (fun pm => !(keepForUpload (existingUrls (env.kbFiles kid)) pm))
          = file_paths.zip ms := by
      rw [List.filter_eq_self]
      intro pm hpm
      simp [hkeepfalse pm hpm]
    have hplan : planBatches B ((file_paths.zip ms).filter
        (keepForUpload (existingUrls (env.kbFiles kid))))
          = .ok ([] : List (List (String × ExtraMetadata))) := by
      rw [hfilter]
      simp only [planBatches]
      split
      · omega
      · split
        · rfl
        · simp [chunksOf_nil]
    simp only [add_files, normalizeMeta, hplan, hfilter2, processBatches]

/-- Witness for C10: two documents, one with an empty URL and one with no
URL, are both dropped with "already exists" warnings and nothing is
uploaded. -/
theorem add_files_drops_urlless_witness :
    add_files envFresh 3 "kb" ["p1", "p2"] (.list [mdUrlEmpty, mdUrlNone])
      = .ok ⟨[], (["p1", "p2"].zip [mdUrlEmpty, mdUrlNone]).map skipWarning,
          [], []⟩ :=
  (add_files_drops_urlless envFresh 3 "kb" ["p1", "p2"]
    [mdUrlEmpty, mdUrlNone]).2 (by decide) (by decide)

/-- Every record produced by the update loop carries the `"file_name"` key. -/
theorem updateOne_file_name_isSome (env : Env) (kid : String)
    (files : List FileRec) (p : String) (m : ExtraMetadata) :
    (updateOne env kid files p m).1.file_name.isSome = true := by
  simp only [updateOne]
  rcases findFileByUrl files m.metadata with _ | f
  · rfl
  · dsimp only
    split
    · rfl
    · split <;> rfl

/-- CLAIM C2 (amended): records from `remove_files` always carry a top-level
`file_id`; records from `update_files` always carry a top-level `file_name`;
batch-attach failure records carry a top-level `file_id`, but the per-file
success records produced after a successful batch attach call carry no
top-level identifier at all — the file id appears only nested inside the
`result` payload. -/
theorem result_record_identifiers (env : Env) (kid : String)
    (ids : List String) (file_paths : List String) (ms : List ExtraMetadata) :
    (∀ res ∈ remove_files env kid ids, res.file_id.isSome = true)
      ∧ (∀ res ∈ update_files env kid file_paths ms,
          res.file_name.isSome = true)
      ∧ (∀ res ∈ addFilesToKbBatch env kid ids,
          (res.success = false → res.file_id.isSome = true)
            ∧ (res.success = true → res.file_id = none ∧ res.file_name = none ∧
                ∃ fid br, res.result = some (.batchEntry fid br) ∧ fid ∈ ids)) := by
  refine ⟨?_, ?_, ?_⟩
  · intro res hres
    simp only [remove_files, List.mem_map] at hres
    obtain ⟨fid, -, hres⟩ := hres
    cases h : env.removeResp kid fid <;> rw [h] at hres <;> subst hres <;> rfl
  · intro res hres
    simp only [update_files, List.mem_map] at hres
    obtain ⟨pm, -, hres⟩ := hres
    subst hres
    exact updateOne_file_name_isSome env kid (env.kbFiles kid) pm.1 pm.2
  · intro res hres
    simp only [addFilesToKbBatch] at hres
    split at hres
    · simp at hres
    · split at hres
      · simp only [List.mem_map] at hres
        obtain ⟨fid, -, hres⟩ := hres
        subst hres
        exact ⟨fun _ => rfl, fun h => by cases h⟩
      · simp only [List.mem_map] at hres
        obtain ⟨fid, hfid, hres⟩ := hres
        subst hres
        constructor
        · intro h
          cases h
        · intro h2
          exact ⟨rfl, rfl, fid, _, rfl, hfid⟩

/-- Witness for the amended C2, applying it to a concrete remove record. -/
theorem result_record_identifiers_witness :
    ({ file_id := some "x", success := true,
       result := some (RVal.remote "removed") } : OpResult).file_id.isSome
      = true :=
  (result_record_identifiers envFresh "kb" ["x"] [] []).1
    { file_id := some "x", success := true,
      result := some (RVal.remote "removed") } (by decide)

/-- Counterexample to C2 as stated: after a successful batch attach,
`add_files` returns a success record with neither a `file_id` nor a
`file_name` key, so not every result record names its item. -/
theorem batch_success_record_lacks_identifier :
    (add_files envFresh 5 "kb" ["p"] (.list [mdUrlU])).map
        (fun out => out.results.map
          (fun res => res.file_id.isSome || res.file_name.isSome))
      = .ok [false] := by
  rfl

/-- A successful `add_files` call logs exactly one skip warning for each
zipped pair rejected by the keep filter, in input order. -/
theorem add_files_ok_warnings (env : Env) (B : Int) (kid : String)
    (file_paths : List String) (ms : List ExtraMetadata) (out : AddOut)
    (hok : add_files env B kid file_paths (.list ms) = .ok out) :
    out.warnings = ((file_paths.zip ms).filter
      (fun pm => !(keepForUpload (existingUrls (env.kbFiles kid)) pm))).map
        skipWarning := by
  simp only [add_files, normalizeMeta] at hok
  rcases hp : planBatches B ((file_paths.zip ms).filter
      (keepForUpload (existingUrls (env.kbFiles kid)))) with e | chunks
  · rw [hp] at hok; cases hok
  · rw [hp] at hok
    injection hok with hout
    subst hout
    rfl

/-- CLAIM C4: a document whose URL is already present in the knowledge
base's existing-URL set is never uploaded and is dropped from the result
list entirely (no failure record), with an "already exists" warning logged;
consequently adding the same document twice — its URL being present in the
remote list by the second call, per the metadata round-trip convention —
yields one successful result on the first call and zero results on the
second.  The last conjunct states the per-document guarantee inside an
arbitrary batch: a pair whose URL is already present is never among the
upload calls and its skip warning is logged. -/
theorem add_files_idempotent_skip (env1 env2 : Env) (B : Int) (kid p : String)
    (m : ExtraMetadata) (fid r : String)
    (hB : 1 ≤ B)
    (hurl : truthyStr m.metadata.url = true)
    (hnew : m.metadata.url ∉ existingUrls (env1.kbFiles kid))
    (hsend : env1.sendFile p m = some fid) (hfid : fid ≠ "")
    (hattach : env1.batchAttach kid [fid] = .ok r)
    (hpresent : m.metadata.url ∈ existingUrls (env2.kbFiles kid)) :
    add_files env1 B kid [p] (.list [m])
        = .ok ⟨[{ success := true, result := some (.batchEntry fid r) }],
            [], [(p, m)], [[fid]]⟩
      ∧ add_files env2 B kid [p] (.list [m])
        = .ok ⟨[], [skipWarning (p, m)], [], []⟩
      ∧ (∀ env3 B3 kid3 paths3 ms3 out pm,
          add_files env3 B3 kid3 paths3 (.list ms3) = .ok out →
          pm ∈ paths3.zip ms3 →
          pm.2.metadata.url ∈ existingUrls (env3.kbFiles kid3) →
          pm ∉ out.uploadCalls ∧ skipWarning pm ∈ out.warnings) := by
  have h0 : ¬(B = 0) := by omega
  have hneg : ¬(B < 0) := by omega
  refine ⟨?_, ?_, ?_⟩
  case refine_3 =>
    intro env3 B3 kid3 paths3 ms3 out pm hok hpm hpresent3
    have hkeep : keepForUpload (existingUrls (env3.kbFiles kid3)) pm = false := by
      simp [keepForUpload, hpresent3]
    constructor
    · intro hmem
      have := mem_uploadCalls_keep env3 B3 kid3 paths3 ms3 out pm hok hmem
      rw [hkeep] at this
      cases this
    · rw [add_files_ok_warnings env3 B3 kid3 paths3 ms3 out hok]
      refine List.mem_map_of_mem skipWarning ?_
      rw [List.mem_filter]
      exact ⟨hpm, by simp [hkeep]⟩
  · have hkeep : keepForUpload (existingUrls (env1.kbFiles kid)) (p, m) = true := by
      simp [keepForUpload, hurl, hnew]
    simp only [add_files, normalizeMeta, List.zip_cons_cons, List.zip_nil_right,
      List.filter_cons, List.filter_nil, hkeep, Bool.not_true, if_true, if_false,
      cond_true, cond_false, planBatches, h0, hneg, ite_false, chunksOf_cons,
      List.take_nil, List.drop_nil, chunksOf_nil, processBatches,
      uploadFilesBatch, List.map_cons, List.map_nil, List.filterMap_cons,
      List.filterMap_nil, hsend]
    simp [hfid, addFilesToKbBatch, hattach]
  · have hkeep : keepForUpload (existingUrls (env2.kbFiles kid)) (p, m) = false := by
      simp [keepForUpload, hpresent]
    simp only [add_files, normalizeMeta, List.zip_cons_cons, List.zip_nil_right,
      List.filter_cons, List.filter_nil, hkeep, Bool.not_false, planBatches, h0,
      hneg, ite_false, chunksOf_nil, processBatches, List.map_cons, List.map_nil]
    simp

/-- Witness for C4: adding path `"p"` with URL `"u"` to a fresh knowledge
base succeeds once; against a base already holding URL `"u"` the same call
returns no results and only the warning. -/
theorem add_files_idempotent_skip_witness :
    add_files envFresh 3 "kb" ["p"] (.list [mdUrlU])
        = .ok ⟨[{ success := true, result := some (.batchEntry "id-p" "batch-ok") }],
            [], [("p", mdUrlU)], [["id-p"]]⟩
      ∧ add_files envSeen 3 "kb" ["p"] (.list [mdUrlU])
        = .ok ⟨[], [skipWarning ("p", mdUrlU)], [], []⟩ :=
  ⟨(add_files_idempotent_skip envFresh envSeen 3 "kb" "p" mdUrlU "id-p"
      "batch-ok" (by decide) (by decide) (by decide) (by rfl) (by decide)
      (by rfl) (by decide)).1,
   (add_files_idempotent_skip envFresh envSeen 3 "kb" "p" mdUrlU "id-p"
      "batch-ok" (by decide) (by decide) (by decide) (by rfl) (by decide)
      (by rfl) (by decide)).2.1⟩

/-- CLAIM C5: with batch size `B ≥ 1` and `N` input documents carrying
pairwise distinct truthy URLs, none already present, and every upload
returning a truthy file id (described by `f`), `add_files` issues exactly
`⌈N/B⌉` batch-attach calls (written `(N + B - 1) / B`), each carrying at
most `B` file ids, and the concatenation of the attach calls lists the
uploaded ids in input order, covering all `N` documents. -/
theorem add_files_batch_plan (env : Env) (B : Nat) (kid : String)
    (file_paths : List String) (ms : List ExtraMetadata)
    (f : String × ExtraMetadata → String)
    (hB : 1 ≤ B)
    (hdistinct : ((file_paths.zip ms).map
      (fun pm => pm.2.metadata.url)).Pairwise (· ≠ ·))
    (hnew : ∀ pm ∈ file_paths.zip ms, truthyStr pm.2.metadata.url = true ∧
      pm.2.metadata.url ∉ existingUrls (env.kbFiles kid))
    (hup : ∀ pm ∈ file_paths.zip ms,
      env.sendFile pm.1 pm.2 = some (f pm) ∧ f pm ≠ "") :
    ∃ out, add_files env (B : Int) kid file_paths (.list ms) = .ok out ∧
      out.attachCalls.length = ((file_paths.zip ms).length + B - 1) / B ∧
      (∀ c ∈ out.attachCalls, c.length ≤ B) ∧
      out.attachCalls.flatten = (file_paths.zip ms).map f := by
  have hfilter : (file_paths.zip ms).filter
      (keepForUpload (existingUrls (env.kbFiles kid))) = file_paths.zip ms := by
    rw [List.filter_eq_self]
    intro pm hpm
    have h := hnew pm hpm
    simp [keepForUpload, h.1, h.2]
  have h0 : ¬((B : Int) = 0) := by omega
  have hneg : ¬((B : Int) < 0) := by omega
  have hplan : planBatches (B : Int) ((file_paths.zip ms).filter
      (keepForUpload (existingUrls (env.kbFiles kid))))
        = .ok (chunksOf B (file_paths.zip ms)) := by
    simp [planBatches, h0, hneg, hfilter]
  have hchunks : ∀ c ∈ chunksOf B (file_paths.zip ms),
      uploadFilesBatch env c = c.map f ∧ c ≠ [] := by
    intro c hc
    refine ⟨uploadFilesBatch_all_ok env f c ?_, ne_nil_of_mem_chunksOf hc⟩
    intro pm hpm
    apply hup
    have hmem : pm ∈ (chunksOf B (file_paths.zip ms)).flatten :=
      List.mem_flatten.mpr ⟨c, hc, hpm⟩
    rwa [chunksOf_flatten] at hmem
  have hout : add_files env (B : Int) kid file_paths (.list ms)
      = .ok { results := (processBatches env kid
                (chunksOf B (file_paths.zip ms))).1,
              warnings := ((file_paths.zip ms).filter
                (fun pm => !(keepForUpload (existingUrls (env.kbFiles kid))
                  pm))).map skipWarning,
              uploadCalls := (processBatches env kid
                (chunksOf B (file_paths.zip ms))).2.1,
              attachCalls := (processBatches env kid
                (chunksOf B (file_paths.zip ms))).2.2 } := by
    simp only [add_files, normalizeMeta, hplan]
  refine ⟨_, hout, ?_, ?_, ?_⟩
  · show (processBatches env kid (chunksOf B (file_paths.zip ms))).2.2.length = _
    rw [processBatches_attachCalls env kid f _ hchunks]
    simp [length_chunksOf hB]
  · show ∀ c ∈ (processBatches env kid (chunksOf B (file_paths.zip ms))).2.2,
      c.length ≤ B
    rw [processBatches_attachCalls env kid f _ hchunks]
    intro c hc
    obtain ⟨c0, hc0, rfl⟩ := List.mem_map.mp hc
    simpa using length_le_of_mem_chunksOf hB hc0
  · show (processBatches env kid (chunksOf B (file_paths.zip ms))).2.2.flatten = _
    rw [processBatches_attachCalls env kid f _ hchunks, ← List.map_flatten,
      chunksOf_flatten]

/-- Witness for C5, the spec's own scenario: batch size 3 and 7 fresh
documents yield 3 attach calls of sizes 3, 3, 1 covering all 7 ids in input
order. -/
theorem add_files_batch_plan_witness :
    ∃ out, add_files envFresh ((3 : Nat) : Int) "kb" paths7 (.list mds7)
        = .ok out ∧
      out.attachCalls.length = ((paths7.zip mds7).length + 3 - 1) / 3 ∧
      (∀ c ∈ out.attachCalls, c.length ≤ 3) ∧
      out.attachCalls.flatten
        = (paths7.zip mds7).map (fun pm => "id-" ++ pm.1) :=
  add_files_batch_plan envFresh 3 "kb" paths7 mds7 (fun pm => "id-" ++ pm.1)
    (by decide) (by decide) (by decide) (by decide)

/-- CLAIM C6: in the update loop, a document whose URL matches no remote
file yields a failure record with error "File not found" and no remote
calls, and processing continues — `update_files` emits one record per
zipped input pair regardless; a matched document whose remove call fails
yields a failure record and no upload of the replacement is attempted. -/
theorem update_files_error_paths (env : Env) (kid : String)
    (file_paths : List String) (ms : List ExtraMetadata)
    (p : String) (m : ExtraMetadata) :
    (findFileByUrl (env.kbFiles kid) m.metadata = none →
        updateOne env kid (env.kbFiles kid) p m
          = ({ file_name := some none, success := false,
               error := some "File not found" }, ⟨[], [], [], []⟩))
      ∧ (∀ f e, findFileByUrl (env.kbFiles kid) m.metadata = some f →
          f.id ≠ "" → env.removeResp kid f.id = .error e →
          updateOne env kid (env.kbFiles kid) p m
            = ({ file_name := some (getItemUrlOfFile (some f)),
                 success := false, error := some "Failed to remove file" },
              ⟨[f.id], [], [], []⟩))
      ∧ (update_files env kid file_paths ms).length
          = (file_paths.zip ms).length := by
  refine ⟨?_, ?_, ?_⟩
  · intro hnone
    simp [updateOne, hnone, getItemUrlOfFile]
  · intro f e hfind hid hrem
    simp [updateOne, hfind, hid, remove_files, hrem]
  · simp [update_files]

/-- Witness for C6: against an empty knowledge base the update of URL `"u"`
reports "File not found" with no remote calls; against a base holding the
file but whose remove endpoint fails, it reports "Failed to remove file"
after one remove call and attempts no upload. -/
theorem update_files_error_paths_witness :
    updateOne envFresh "kb" (envFresh.kbFiles "kb") "p" mdUrlU
        = ({ file_name := some none, success := false,
             error := some "File not found" }, ⟨[], [], [], []⟩)
      ∧ updateOne envRemoveErr "kb" (envRemoveErr.kbFiles "kb") "p" mdUrlU
        = ({ file_name := some (getItemUrlOfFile (some ⟨"f1", some mdUrlU⟩)),
             success := false, error := some "Failed to remove file" },
          ⟨["f1"], [], [], []⟩) :=
  ⟨(update_files_error_paths envFresh "kb" [] [] "p" mdUrlU).1 (by decide),
   (update_files_error_paths envRemoveErr "kb" [] [] "p" mdUrlU).2.1
     ⟨"f1", some mdUrlU⟩ "remove-500" (by decide) (by decide) (by rfl)⟩

/-- In the branch where the matched file's removal succeeded, the update
loop reports `success=True` with the nested single-add result, after one
remove call and one upload attempt. -/
theorem updateOne_removed_ok (env : Env) (kid : String) (files : List FileRec)
    (p : String) (m : ExtraMetadata) (f : FileRec) (r : String)
    (hfind : findFileByUrl files m.metadata = some f)
    (hid : f.id ≠ "") (hrem : env.removeResp kid f.id = .ok r) :
    updateOne env kid files p m
      = ({ file_name := some (getItemUrlOfFile (some f)), success := true,
           result := some (.single (uploadFileAndAddToKb env p m kid).1.success
             (uploadFileAndAddToKb env p m kid).1.result
             (uploadFileAndAddToKb env p m kid).1.error) },
        ⟨[f.id], [f.id], [(p, m)],
          match (uploadFileAndAddToKb env p m kid).2 with
          | some fid => [(fid, m)]
          | none => []⟩) := by
  simp [updateOne, hfind, hid, remove_files, hrem]

/-- The single-item upload-and-attach reports success exactly when it also
returns an attached file id. -/
theorem uploadFileAndAddToKb_attach_id (env : Env) (p : String)
    (m : ExtraMetadata) (kid : String) :
    ((uploadFileAndAddToKb env p m kid).1.success = true →
        ∃ fid, (uploadFileAndAddToKb env p m kid).2 = some fid)
      ∧ ((uploadFileAndAddToKb env p m kid).1.success = false →
        (uploadFileAndAddToKb env p m kid).2 = none) := by
  simp only [uploadFileAndAddToKb]
  rcases env.sendFile p m with _ | fid
  · simp
  · dsimp only
    split
    · simp
    · rcases env.fileAdd kid fid with e | r2 <;> simp

/-- CLAIM C1 (amended): a `success=True` record from the update loop
guarantees that exactly one remove call was made — and succeeded — on the
file whose embedded URL equals the document's URL, and that exactly one
replacement upload with the same metadata was attempted; but the flag does
not reflect the replacement's own outcome.  Only when the nested add result
is itself successful was exactly one file with the same metadata (hence the
same URL) uploaded and attached, keeping that URL's remote file count
unchanged; when the nested result is a failure, nothing was attached and the
count drops by one. -/
theorem update_success_means_removed_and_attempted (env : Env) (kid : String)
    (files : List FileRec) (p : String) (m : ExtraMetadata)
    (h : (updateOne env kid files p m).1.success = true) :
    ∃ f, findFileByUrl files m.metadata = some f ∧
      (∃ u, getItemUrlOfFile (some f) = some u ∧ m.metadata.url = some u) ∧
      (updateOne env kid files p m).2.removeCalls = [f.id] ∧
      (updateOne env kid files p m).2.removeSuccesses = [f.id] ∧
      (updateOne env kid files p m).2.uploadCalls = [(p, m)] ∧
      (∀ s ro eo,
        (updateOne env kid files p m).1.result = some (.single s ro eo) →
        s = true →
          ∃ fid, (updateOne env kid files p m).2.attachSuccesses = [(fid, m)]) ∧
      (∀ s ro eo,
        (updateOne env kid files p m).1.result = some (.single s ro eo) →
        s = false →
          (updateOne env kid files p m).2.attachSuccesses = []) := by
  rcases hfind : findFileByUrl files m.metadata with _ | f
  · rw [updateOne] at h
    simp [hfind] at h
  · by_cases hid : f.id = ""
    · rw [updateOne] at h
      simp [hfind, hid] at h
    · rcases hrem : env.removeResp kid f.id with e | r
      · rw [updateOne] at h
        simp [hfind, hid, remove_files, hrem] at h
      · have hrun := updateOne_removed_ok env kid files p m f r hfind hid hrem
        have hurl : ∃ u, getItemUrlOfFile (some f) = some u ∧
            m.metadata.url = some u := by
          have hp := List.find?_some hfind
          rcases hu : getItemUrlOfFile (some f) with _ | u
          · rw [hu] at hp
            cases hp
          · rw [hu] at hp
            exact ⟨u, rfl, of_decide_eq_true hp⟩
        refine ⟨f, rfl, hurl, by rw [hrun], by rw [hrun], by rw [hrun],
          ?_, ?_⟩
        · intro s ro eo hres hs
          rw [hrun] at hres
          have hsucc : (uploadFileAndAddToKb env p m kid).1.success = true := by
            injection hres with hres2
            injection hres2 with h1 h2 h3
            rw [h1, hs]
          obtain ⟨fid, hfid⟩ :=
            (uploadFileAndAddToKb_attach_id env p m kid).1 hsucc
          refine ⟨fid, ?_⟩
          rw [hrun]
          simp [hfid]
        · intro s ro eo hres hs
          rw [hrun] at hres
          have hsucc : (uploadFileAndAddToKb env p m kid).1.success = false := by
            injection hres with hres2
            injection hres2 with h1 h2 h3
            rw [h1, hs]
          have hfid := (uploadFileAndAddToKb_attach_id env p m kid).2 hsucc
          rw [hrun]
          simp [hfid]

/-- Witness for the amended C1: a knowledge base holding file `"f1"` with
URL `"u"`, with every remote call succeeding. -/
theorem update_success_means_removed_witness :
    ∃ f, findFileByUrl (envSeen.kbFiles "kb") mdUrlU.metadata = some f ∧
      (∃ u, getItemUrlOfFile (some f) = some u ∧
        mdUrlU.metadata.url = some u) ∧
      (updateOne envSeen "kb" (envSeen.kbFiles "kb") "p" mdUrlU).2.removeCalls
          = [f.id] ∧
      (updateOne envSeen "kb"
          (envSeen.kbFiles "kb") "p" mdUrlU).2.removeSuccesses = [f.id] ∧
      (updateOne envSeen "kb" (envSeen.kbFiles "kb") "p" mdUrlU).2.uploadCalls
          = [("p", mdUrlU)] ∧
      (∀ s ro eo,
        (updateOne envSeen "kb" (envSeen.kbFiles "kb") "p" mdUrlU).1.result
            = some (.single s ro eo) →
        s = true →
          ∃ fid, (updateOne envSeen "kb"
            (envSeen.kbFiles "kb") "p" mdUrlU).2.attachSuccesses
              = [(fid, mdUrlU)]) ∧
      (∀ s ro eo,
        (updateOne envSeen "kb" (envSeen.kbFiles "kb") "p" mdUrlU).1.result
            = some (.single s ro eo) →
        s = false →
          (updateOne envSeen "kb"
            (envSeen.kbFiles "kb") "p" mdUrlU).2.attachSuccesses = []) :=
  update_success_means_removed_and_attempted envSeen "kb"
    (envSeen.kbFiles "kb") "p" mdUrlU (by decide)

/-- Counterexample to C1 as stated: with removal succeeding but the
replacement upload failing, `update_files` still reports `success=True`,
yet no new file was uploaded or attached — the URL's remote file count
decreased by one, so a successful record does not imply an
identity-preserving replace. -/
theorem update_success_without_replacement :
    update_files envUploadFail "kb" ["p"] [mdUrlU]
        = [{ file_name := some (some "u"), success := true,
             result := some (.single false none
               (some "Failed to upload file")) }]
      ∧ updateTraces envUploadFail "kb" ["p"] [mdUrlU]
        = [⟨["f1"], ["f1"], [("p", mdUrlU)], []⟩] := by
  decide

/-- Counterexample to C3 as stated: constructing the manager with batch size
`0 < 1` succeeds — no configuration error is raised at construction time. -/
theorem init_accepts_invalid_batch_size :
    initManager none none none (some "k") 0
      = .ok { base_url := "http://localhost:8080/api/v1", api_key := "k",
              batch_size := 0 } := by
  rfl

/-- CLAIM C3 (amended): the constructor performs no batch-size validation:
for every batch size, including every value < 1, construction succeeds
whenever the resolved API key is truthy, and it raises `ValueError` exactly
when that key is falsy; a zero batch size surfaces only later, as the
`ValueError` raised by `range()` inside `add_files` (and a negative one
silently yields no batches there). -/
theorem init_validates_only_api_key
    (envUrl envKey base_url api_key : Option String) (B : Int) :
    (truthyStr (pyOr api_key envKey) = true →
        ∃ mgr, initManager envUrl envKey base_url api_key B = .ok mgr ∧
          mgr.batch_size = B)
      ∧ (truthyStr (pyOr api_key envKey) = false →
          initManager envUrl envKey base_url api_key B
            = .error (.valueError
              "API key is required. Provide it as parameter or set OPEN_WEBUI_API_KEY environment variable."))
      ∧ (∀ env kid file_paths ms,
          add_files env 0 kid file_paths (.list ms)
            = .error (.valueError "range() arg 3 must not be zero")) := by
  refine ⟨?_, ?_, ?_⟩
  · intro ht
    simp only [initManager]
    rw [if_pos ht]
    exact ⟨_, rfl, rfl⟩
  · intro hf
    simp only [initManager]
    rw [if_neg (by simp [hf])]
  · intro env kid file_paths ms
    simp [add_files, normalizeMeta, planBatches]

/-- Witness for the amended C3: a negative batch size is accepted at
construction, a missing key raises, and batch size zero raises only inside
`add_files`. -/
theorem init_validates_only_api_key_witness :
    (∃ mgr, initManager none none none (some "k") (-3) = .ok mgr ∧
        mgr.batch_size = -3)
      ∧ initManager none none none none 5
          = .error (.valueError
            "API key is required. Provide it as parameter or set OPEN_WEBUI_API_KEY environment variable.")
      ∧ add_files envFresh 0 "kb" ["p"] (.list [mdUrlU])
          = .error (.valueError "range() arg 3 must not be zero") :=
  ⟨(init_validates_only_api_key none none none (some "k") (-3)).1 (by decide),
   (init_validates_only_api_key none none none none 5).2.1 (by decide),
   (init_validates_only_api_key none none none none 5).2.2 envFresh "kb"
     ["p"] [mdUrlU]⟩

/-- CLAIM C8: `create_knowledge_if_not_exists` returns the id of the first
listed base whose name matches the request exactly, issuing no create call,
and issues a create call only when no listed base matches; run twice against
the spec-modelled store starting with no base of that name, it returns the
same id both times, the second call leaves the store unchanged, and exactly
one base with that name exists afterward. -/
theorem create_if_not_exists_idempotent (env : KbEnv) (name d1 d2 : String)
    (kbs : List KB) (kb : KB) (st : List KB) (freshId freshId2 : String) :
    ((env.listResp = .ok kbs → findKbByName kbs name = some kb →
        create_knowledge_if_not_exists env name d1 = (kb.id, 0))
      ∧ (freshId ≠ "" → (∀ kb2 ∈ st, kb2.name ≠ some name) →
          createIfNotExistsStep st name d1 freshId
              = (some freshId, st ++ [KB.mk (some freshId) (some name)], 1)
            ∧ createIfNotExistsStep (st ++ [KB.mk (some freshId) (some name)]) name
                d2 freshId2
              = (some freshId, st ++ [KB.mk (some freshId) (some name)], 0)
            ∧ ((st ++ [KB.mk (some freshId) (some name)]).filter
                (fun kb2 => decide (kb2.name = some name))).length = 1)) := by
  constructor
  · intro hlist hfind
    simp [create_knowledge_if_not_exists, hlist, hfind]
  · intro hfresh hnone
    have hfind1 : List.find? (fun kb2 => decide (kb2.name = some name)) st
        = none := by
      rw [List.find?_eq_none]
      intro kb2 hkb2
      simp [hnone kb2 hkb2]
    have hfind2 : findKbByName (st ++ [KB.mk (some freshId) (some name)]) name
        = some (KB.mk (some freshId) (some name)) := by
      rw [findKbByName, List.find?_append, hfind1]
      simp [List.find?]
    refine ⟨?_, ?_, ?_⟩
    · simp [createIfNotExistsStep, create_knowledge_if_not_exists, kbStoreEnv,
        findKbByName, hfind1, hfresh]
    · simp [createIfNotExistsStep, create_knowledge_if_not_exists, kbStoreEnv,
        hfind2]
    · rw [List.filter_append]
      have hnil : st.filter (fun kb2 => decide (kb2.name = some name)) = [] := by
        rw [List.filter_eq_nil_iff]
        intro kb2 hkb2
        simp [hnone kb2 hkb2]
      rw [hnil]
      simp

/-- Witness for C8: a store listing a base named `"n"` returns its id with
no create call; starting from an empty store, two calls return the same
fresh id and leave exactly one base named `"n"`. -/
theorem create_if_not_exists_idempotent_witness :
    create_knowledge_if_not_exists (kbStoreEnv [KB.mk (some "k1") (some "n")]
        "z") "n" "d"
        = ((KB.mk (some "k1") (some "n")).id, 0)
      ∧ (createIfNotExistsStep [] "n" "d" "fresh"
            = (some "fresh", [] ++ [KB.mk (some "fresh") (some "n")], 1)
          ∧ createIfNotExistsStep ([] ++ [KB.mk (some "fresh") (some "n")])
              "n" "d2" "z2"
            = (some "fresh", [] ++ [KB.mk (some "fresh") (some "n")], 0)
          ∧ ((([] : List KB) ++ [KB.mk (some "fresh") (some "n")]).filter
              (fun kb2 => decide (kb2.name = some "n"))).length = 1) :=
  ⟨(create_if_not_exists_idempotent (kbStoreEnv [KB.mk (some "k1") (some "n")]
      "z") "n" "d" "d2" [KB.mk (some "k1") (some "n")]
      (KB.mk (some "k1") (some "n")) [] "fresh" "z2").1 (by rfl) (by decide),
   (create_if_not_exists_idempotent (kbStoreEnv [KB.mk (some "k1") (some "n")]
      "z") "n" "d" "d2" [KB.mk (some "k1") (some "n")]
      (KB.mk (some "k1") (some "n")) [] "fresh" "z2").2 (by decide)
     (by decide)⟩
